import Mathlib

/-!
# Verification of the field-resolution and encoding engine

A shallow embedding of the field-resolution, validation, conversion and
event-assembly code of the `ta_cloud_exchange_plugins` repository
(`chronicle_cls/main.py`, `solarwinds/main.py`,
`arcsight/utils/arcsight_cef_generator.py`,
`cloudtrail/utils/cloudtrail_helper.py`), together with theorems settling
the specification's claims about it.

Python values are modelled by the inductive type `PyVal`; dictionaries are
association lists; machine behaviour such as truthiness, `isinstance(x, int)`
(which in Python is also true for `bool`), `str()`, `int()` and string
`strip` is modelled explicitly. Fallible code returns `Except`.
-/

namespace CloudExchange

/-- Model of a Python value as found in input records: strings, integers,
booleans, `None`, lists and dictionaries (association lists), plus
`datetime.datetime` objects represented by their epoch-seconds instant
(as produced by `datetime.datetime.fromtimestamp`). -/
inductive PyVal where
  | vStr : String → PyVal
  | vInt : Int → PyVal
  | vBool : Bool → PyVal
  | vNone : PyVal
  | vList : List PyVal → PyVal
  | vDict : List (String × PyVal) → PyVal
  | vDateTime : Int → PyVal

/-- Python truthiness: `bool(x)` for each modelled value. -/
def pyTruthy : PyVal → Bool
  | .vStr s => !s.isEmpty
  | .vInt n => n != 0
  | .vBool b => b
  | .vNone => false
  | .vList l => !l.isEmpty
  | .vDict l => !l.isEmpty
  | .vDateTime _ => true

/-- Python `isinstance(x, int)`.  In Python `bool` is a subclass of `int`,
so booleans also satisfy this test. -/
def isIntInstance : PyVal → Bool
  | .vInt _ => true
  | .vBool _ => true
  | _ => false

/-- A single-quote character (ASCII 39), used by the Python `repr` of strings. -/
def squote : String := String.singleton (Char.ofNat 39)

mutual

/-- Model of Python `str(x)`.  For strings it is the identity; for the
container types it is the `repr`-style rendering Python produces. -/
def pyStr : PyVal → String
  | .vStr s => s
  | .vInt n => toString n
  | .vBool b => if b then "True" else "False"
  | .vNone => "None"
  | .vList l => "[" ++ String.intercalate ", " (pyReprList l) ++ "]"
  | .vDict l => "\x7b" ++ String.intercalate ", " (pyReprDict l) ++ "\x7d"
  | .vDateTime n => "datetime(" ++ toString n ++ ")"

/-- Model of Python `repr(x)` (Python renders container elements with `repr`,
which quotes strings). -/
def pyRepr : PyVal → String
  | .vStr s => squote ++ s ++ squote
  | .vInt n => toString n
  | .vBool b => if b then "True" else "False"
  | .vNone => "None"
  | .vList l => "[" ++ String.intercalate ", " (pyReprList l) ++ "]"
  | .vDict l => "\x7b" ++ String.intercalate ", " (pyReprDict l) ++ "\x7d"
  | .vDateTime n => "datetime(" ++ toString n ++ ")"

/-- `repr` of each element of a list. -/
def pyReprList : List PyVal → List String
  | [] => []
  | v :: vs => pyRepr v :: pyReprList vs

/-- `repr` of each entry of a dictionary. -/
def pyReprDict : List (String × PyVal) → List String
  | [] => []
  | (k, v) :: kvs => (squote ++ k ++ squote ++ ": " ++ pyRepr v) :: pyReprDict kvs

end

/-- Strip the characters of `cs` from both ends of `s`; models Python
`str.strip(chars)`. -/
def stripChars (cs : List Char) (s : String) : String :=
  ⟨((s.data.dropWhile (· ∈ cs)).reverse.dropWhile (· ∈ cs)).reverse⟩

/-- Split on a separator character; models Python `str.split(sep)` for a
one-character separator (`"".split(sep)` is `[""]`). -/
def pySplit (sep : Char) (s : String) : List String :=
  go s.data []
where
  go : List Char → List Char → List String
  | [], acc => [String.mk acc.reverse]
  | c :: rest, acc =>
    if c = sep then String.mk acc.reverse :: go rest []
    else go rest (c :: acc)

/-- ASCII lower-casing of one character. -/
def lowerChar (c : Char) : Char :=
  if 'A' ≤ c && c ≤ 'Z' then Char.ofNat (c.toNat + 32) else c

/-- Models Python `str.lower()` (for the ASCII range the mapping tables
use). -/
def pyLower (s : String) : String :=
  ⟨s.data.map lowerChar⟩

/-- Parse a non-empty run of decimal digits. -/
def decDigits? (cs : List Char) : Option Nat :=
  if cs.isEmpty then none
  else
    cs.foldl
      (fun acc c =>
        match acc with
        | none => none
        | some n => if c.isDigit then some (n * 10 + (c.toNat - 48)) else none)
      (some 0)

/-- Model of Python `int(x)` on the value kinds appearing in records:
integers are returned, booleans become 0/1, strings parse as an optionally
signed decimal numeral after stripping surrounding whitespace, everything
else raises (here `none`). -/
def pyToInt : PyVal → Option Int
  | .vInt n => some n
  | .vBool b => some (if b then 1 else 0)
  | .vStr s =>
    match (stripChars [' ', '\t', '\n', '\r'] s).data with
    | '-' :: rest => (decDigits? rest).map (fun n => -(n : Int))
    | '+' :: rest => (decDigits? rest).map (fun n => (n : Int))
    | t => (decDigits? t).map (fun n => (n : Int))
  | _ => none

/-- A mapping rule from the declarative configuration: the four possible
keys of a rule object.  `none` models an absent key; `some ""` a key
present with an empty value.  `is_json_path` models the *presence* of the
`is_json_path` key, which is how the code tests it. -/
structure MappingRule where
  mapping_field : Option String
  default_value : Option String
  transformation : Option String
  is_json_path : Bool
deriving Repr, DecidableEq

/-- The code's test `"mapping_field" in em and em["mapping_field"]`:
the key is present and its value is truthy (a non-empty string). -/
def mappingPresent (em : MappingRule) : Bool :=
  match em.mapping_field with
  | some s => !s.isEmpty
  | none => false

/-- Errors the resolution code can raise: `FieldNotFoundError(field)`
(caught by the callers), Python `KeyError` (from `em["default_value"]`
when that key is absent), and Python `TypeError` (from `str.join` on
non-string elements). -/
inductive FErr where
  | fieldNotFound : String → FErr
  | keyError : String → FErr
  | typeError : FErr
deriving Repr, DecidableEq

/-- Model of the third-party `jsonpath(data, path)` call used by
`get_mapping_value_from_json_path`: it returns the list of matches, or
`False` (modelled as `none`) when nothing matches.  Modelled for simple
top-level key paths, the only shape the claims exercise. -/
def get_mapping_value_from_json_path (data : List (String × PyVal)) (path : String) : Option (List PyVal) :=
  match data.lookup path with
  | some v => some [v]
  | none => none

namespace Chronicle

/-- `chronicle_cls/main.py` `get_mapping_value_from_field` (lines 349-363):
given the value stored under the field (the callers test presence first),
return it if it is truthy or an `int` instance, else the literal string
`"null"`. -/
def get_mapping_value_from_field (v : PyVal) : PyVal :=
  if pyTruthy v || isIntInstance v then v else .vStr "null"

/-- The `else` branch of `get_field_value_from_data`: when the mapping is
not present the code does `return extension_mapping["default_value"]`,
which raises `KeyError` if that key is absent. -/
def defaultBranch (em : MappingRule) : Except FErr PyVal :=
  match em.default_value with
  | some d => .ok (.vStr d)
  | none => .error (.keyError "default_value")

/-- The trimming applied to each composite component:
`field.strip(" ").strip("[]")`. -/
def trimComponent (f : String) : String :=
  stripChars ['[', ']'] (stripChars [' '] f)

/-- Extract the underlying strings of a list of values; `none` if any
value is not a string. -/
def asStrings : List PyVal → Option (List String)
  | [] => some []
  | .vStr s :: rest => (asStrings rest).map (fun ss => s :: ss)
  | _ => none

/-- `" - ".join(out_list)`: Python `str.join` raises `TypeError` unless
every element is a string. -/
def joinDash (l : List PyVal) : Except FErr PyVal :=
  match asStrings l with
  | some ss => .ok (.vStr (String.intercalate " - " ss))
  | none => .error .typeError

/-- The composite loop of `get_field_value_from_data` (lines 529-547):
each component is trimmed, the literal `NULL` contributes the string
`"NULL"` without a lookup, a present component contributes its
`get_mapping_value_from_field` value; the first absent component makes
the whole call return `default_value` if that key is present, else raise
`FieldNotFoundError(mapping_field)`; when all components resolve they are
joined with `" - "`. -/
def compositeLoop (em : MappingRule) (data : List (String × PyVal)) :
    List String → List PyVal → Except FErr PyVal
  | [], acc => joinDash acc.reverse
  | f :: rest, acc =>
    if trimComponent f = "NULL" then
      compositeLoop em data rest (.vStr "NULL" :: acc)
    else
      match data.lookup (trimComponent f) with
      | some v => compositeLoop em data rest (get_mapping_value_from_field v :: acc)
      | none =>
        match em.default_value with
        | some d => .ok (.vStr d)
        | none => .error (.fieldNotFound (em.mapping_field.getD ""))

/-- `chronicle_cls/main.py` `get_field_value_from_data` (lines 461-551):
resolve a field from the mapping rule and the record, per the 8-row
precedence table in its docstring. -/
def get_field_value_from_data (em : MappingRule) (data : List (String × PyVal))
    (is_json_path : Bool) : Except FErr PyVal :=
  if mappingPresent em then
    let mf := em.mapping_field.getD ""
    if is_json_path then
      match get_mapping_value_from_json_path data mf with
      | some vals => .ok (.vStr (String.intercalate "," (vals.map pyStr)))
      | none => .error (.fieldNotFound mf)
    else
      let field_list := pySplit '-' mf
      if field_list.length = 1 then
        match data.lookup mf with
        | some v => .ok (get_mapping_value_from_field v)
        | none =>
          match em.default_value with
          | some d => .ok (.vStr d)
          | none => .error (.fieldNotFound mf)
      else
        compositeLoop em data field_list []
  else
    defaultBranch em

/-- A composite component resolves when its trimmed form is the literal
`NULL` or is present in the record. -/
def componentResolves (data : List (String × PyVal)) (f : String) : Bool :=
  trimComponent f == "NULL" || (data.lookup (trimComponent f)).isSome

/-- The value a resolving composite component contributes: the string
`"NULL"` for the literal, else the `get_mapping_value_from_field` value of
the record entry (the `none` arm is never reached for a resolving
component). -/
def componentVal (data : List (String × PyVal)) (f : String) : PyVal :=
  if trimComponent f = "NULL" then .vStr "NULL"
  else
    match data.lookup (trimComponent f) with
    | some v => get_mapping_value_from_field v
    | none => .vStr "null"

end Chronicle

namespace SolarWinds

/-- `solarwinds/main.py` `get_mapping_value_from_field` (lines 132-146):
given the value stored under the field, return `(value, True)` if it is
truthy or an `int` instance, else `("null", False)`.  The second component
is the `mapped_field` provenance flag. -/
def get_mapping_value_from_field (v : PyVal) : PyVal × Bool :=
  if pyTruthy v || isIntInstance v then (v, true) else (.vStr "null", false)

/-- The `else` branch of the SolarWinds `get_field_value_from_data`:
`return extension_mapping["default_value"], mapped_field` with
`mapped_field = False`; raises `KeyError` if the key is absent. -/
def defaultBranch (em : MappingRule) : Except FErr (PyVal × Bool) :=
  match em.default_value with
  | some d => .ok (.vStr d, false)
  | none => .error (.keyError "default_value")

/-- `solarwinds/main.py` `get_field_value_from_data` (lines 246-325):
resolve a field from the mapping rule and the record, returning the value
together with the `mapped_field` provenance flag.  Direct mode has a
special case for rules with `transformation == "Time Stamp"` and a truthy
stored value: `int(...)` is attempted, returning `(int, True)` on success
and falling through to `get_mapping_value_from_field` on failure. -/
def get_field_value_from_data (em : MappingRule) (data : List (String × PyVal))
    (is_json_path : Bool) : Except FErr (PyVal × Bool) :=
  if mappingPresent em then
    let mf := em.mapping_field.getD ""
    if is_json_path then
      match get_mapping_value_from_json_path data mf with
      | some vals => .ok (.vStr (String.intercalate "," (vals.map pyStr)), true)
      | none => .error (.fieldNotFound mf)
    else
      match data.lookup mf with
      | some v =>
        if em.transformation = some "Time Stamp" && pyTruthy v then
          match pyToInt v with
          | some n => .ok (.vInt n, true)
          | none => .ok (get_mapping_value_from_field v)
        else
          .ok (get_mapping_value_from_field v)
      | none =>
        match em.default_value with
        | some d => .ok (.vStr d, false)
        | none => .error (.fieldNotFound mf)
  else
    defaultBranch em

/-- The `$tenant_name` variable substitution in `get_headers`
(lines 197-204): a string header value whose lower-case form is a key of
`mapping_variables` is replaced by the variable's value. -/
def substituteVars (vars : List (String × String)) (v : PyVal) : PyVal :=
  match v with
  | .vStr s =>
    match vars.lookup (pyLower s) with
    | some t => .vStr t
    | none => .vStr s
  | _ => v

/-- The shared loop shape of `get_headers` (lines 164-208) and
`get_extensions` (lines 210-244): iterate over the mapping rules, resolve
each with `get_field_value_from_data`, accumulate the resolved dictionary
and OR together the per-field `mapped_field` flags
(`if mapped_field: mapped_field_flag = mapped_field`); a
`FieldNotFoundError` is caught and the field skipped, any other error
propagates. -/
def resolveFold (resolve : String × MappingRule → Except FErr (PyVal × Bool))
    (post : PyVal → PyVal) :
    List (String × MappingRule) → List (String × PyVal) → Bool →
    Except FErr (List (String × PyVal) × Bool)
  | [], acc, flag => .ok (acc.reverse, flag)
  | p :: rest, acc, flag =>
    match resolve p with
    | .ok (v, mf) => resolveFold resolve post rest ((p.1, post v) :: acc) (flag || mf)
    | .error (.fieldNotFound _) => resolveFold resolve post rest acc flag
    | .error e => .error e

/-- `solarwinds/main.py` `get_headers` (lines 164-208): resolve every
configured header (direct mode), apply the variable substitution, and
return the header dict with the OR of the `mapped_field` flags. -/
def get_headers (vars : List (String × String)) (hm : List (String × MappingRule))
    (data : List (String × PyVal)) : Except FErr (List (String × PyVal) × Bool) :=
  resolveFold (fun p => get_field_value_from_data p.2 data false) (substituteVars vars) hm [] false

/-- `solarwinds/main.py` `get_extensions` (lines 210-244): resolve every
configured extension, passing `is_json_path := "is_json_path" in mapping`,
and return the extension dict with the OR of the `mapped_field` flags. -/
def get_extensions (em : List (String × MappingRule))
    (data : List (String × PyVal)) : Except FErr (List (String × PyVal) × Bool) :=
  resolveFold (fun p => get_field_value_from_data p.2 data p.2.is_json_path) id em [] false

/-- The per-record body of `solarwinds/main.py` `transform`
(lines 451-494, `transformData` path): an empty record is skipped; an
exception from header or extension resolution skips the record; a record
with `not (mapped_flag_header or mapped_flag_extension)` is dropped; the
surviving record is handed to the CEF encoder (abstracted here: the
resolved header and extension dictionaries are the emitted artifact). -/
def transformRecord (vars : List (String × String))
    (hm em : List (String × MappingRule)) (data : List (String × PyVal)) :
    Option (List (String × PyVal) × List (String × PyVal)) :=
  if data.isEmpty then none
  else
    match get_headers vars hm data with
    | .error _ => none
    | .ok (h, mapped_flag_header) =>
      match get_extensions em data with
      | .error _ => none
      | .ok (e, mapped_flag_extension) =>
        if !(mapped_flag_header || mapped_flag_extension) then none
        else some (h, e)

end SolarWinds

namespace ArcSight

/-- `CEFTypeError(message)` raised by the converters and sanitizers of
`arcsight/utils/arcsight_cef_generator.py`. -/
inductive CEFErr where
  | typeError : String → CEFErr

/-- `arcsight/utils/arcsight_cef_generator.py` `epoch_convertor`
(lines 222-245): `val = str(val)`; if the text is shorter than 13
characters it is right-padded with `'0'` to exactly 13; otherwise it is
returned unchanged.  The `except` arm (raising `CEFTypeError`) is
unreachable because `str()` and slicing cannot fail on these values, so
the function always succeeds. -/
def epoch_convertor (val : PyVal) (_debug_name : String) : Except CEFErr String :=
  let s := pyStr val
  .ok (if s.length < 13 then s ++ String.mk (List.replicate (13 - s.length) '0') else s)

/-- The smallest epoch-seconds instant `datetime` can represent,
`datetime.min` (year 1) as a UTC timestamp. -/
def DATETIME_MIN_TS : Int := -62135596800

/-- The largest whole epoch-seconds instant `datetime` can represent,
`datetime.max` (year 9999) as a UTC timestamp. -/
def DATETIME_MAX_TS : Int := 253402300799

/-- `arcsight/utils/arcsight_cef_generator.py` `datetime_converter`
(lines 200-220): `datetime.datetime.fromtimestamp(val)`.  Python's
`fromtimestamp` accepts a real number of epoch seconds (including `bool`,
a subclass of `int`) and returns a `datetime` object, but raises
(`OverflowError`/`OSError`/`ValueError`) when the instant falls outside
the `datetime` range of years 1..9999; any other input raises
`TypeError`.  Every exception is wrapped in `CEFTypeError` by the code.
`fromtimestamp` interprets the timestamp in the platform's local
timezone, which shifts the exact cutoff by the local offset; the model
fixes the offset to UTC, giving the bounds
`DATETIME_MIN_TS ≤ n ≤ DATETIME_MAX_TS`. -/
def datetime_converter (val : PyVal) (debug_name : String) : Except CEFErr PyVal :=
  match val with
  | .vInt n =>
    if DATETIME_MIN_TS ≤ n ∧ n ≤ DATETIME_MAX_TS then .ok (.vDateTime n)
    else
      .error (.typeError (debug_name ++ ": Error occurred while converting to datetime"))
  | .vBool b => .ok (.vDateTime (if b then 1 else 0))
  | _ =>
    .error (.typeError (debug_name ++ ": Error occurred while converting to datetime"))

/-- `arcsight/utils/arcsight_cef_generator.py` `epoch_sanitizer`
(lines 158-178): the converted epoch value must be a string. -/
def epoch_sanitizer (n : PyVal) (debug_name : String) : Except CEFErr PyVal :=
  match n with
  | .vStr s => .ok (.vStr s)
  | _ => .error (.typeError (debug_name ++ ": Expected Epoch Time as String"))

/-- Python's string comparison on lists of characters: lexicographic by
code point, a shorter prefix compares below. -/
def charListLe : List Char → List Char → Bool
  | [], _ => true
  | _ :: _, [] => false
  | a :: as, b :: bs =>
    if a.toNat < b.toNat then true
    else if b.toNat < a.toNat then false
    else charListLe as bs

/-- Python's `<=` on strings. -/
def pyStrLe (a b : String) : Prop := charListLe a.data b.data = true

instance : DecidableRel pyStrLe := fun a b =>
  inferInstanceAs (Decidable (charListLe a.data b.data = true))

/-- The rendering and sorting step of `get_cef_event` (lines 413-415):
`" ".join(sorted("{}={}".format(k, v) for k, v in extension_strs.items()))`.
Python's `sorted` orders the full rendered `key=value` strings by code
point; `List.insertionSort` with that order models it. -/
def extensions_str (ext : List (String × String)) : String :=
  String.intercalate " "
    (List.insertionSort pyStrLe (ext.map (fun p => p.1 ++ "=" ++ p.2)))

/-- The claim's reading of the same step, `Modelled from the spec`:
"sorting pairs lexicographically by key" — the pairs are sorted by their
key alone, then rendered.  Used only to compare with `extensions_str`. -/
def extensions_str_by_key (ext : List (String × String)) : String :=
  String.intercalate " "
    ((List.insertionSort (fun p q : String × String => pyStrLe p.1 q.1) ext).map
      (fun p => p.1 ++ "=" ++ p.2))

/-- Modelled from the spec: the `SEVERITY_UNKNOWN` constant of
`arcsight/utils/arcsight_constants.py` (not under `src/`), the "fixed
`Unknown` sentinel" of §4.4; `"Unknown"` is also the first alternative of
the `_severity_sanitizer` pattern in `arcsight_cef_generator.py`. -/
def SEVERITY_UNKNOWN : String := "Unknown"

/-- The severity-normalization step of `get_cef_event` (lines 388-396):
`AUDIT_SEVERITY_MAP.get(str(v).lower(), SEVERITY_UNKNOWN)` when
`subtype in ["audit"]`, else `SEVERITY_MAP.get(str(v).lower(),
SEVERITY_UNKNOWN)`.  The two tables live in `arcsight_constants.py`
(not under `src/`) and are taken as parameters. -/
def normalize_severity (audit_map general_map : List (String × String))
    (subtype : String) (raw : PyVal) : String :=
  if subtype ∈ ["audit"] then
    ((audit_map.lookup (pyLower (pyStr raw))).getD SEVERITY_UNKNOWN)
  else
    ((general_map.lookup (pyLower (pyStr raw))).getD SEVERITY_UNKNOWN)

end ArcSight

namespace CloudTrail

/-- Whether an optional rule key is present with a truthy (non-empty)
value; `not instance["mapping_field"]` in the Python checks. -/
def optTruthy : Option String → Bool
  | some s => !s.isEmpty
  | none => false

/-- The JSON-schema `oneOf` of `validate_extension_field` /
`validate_header` (`cloudtrail/utils/cloudtrail_helper.py`, lines
132-145 and 73-87): `oneOf [oneOf [required mapping_field, required
default_value], allOf [required mapping_field, required default_value]]`,
i.e. exactly one branch must hold, where the inner `oneOf` holds when
exactly one of the two keys is present, and the `allOf` when both are. -/
def schema_one_of (m d : Option String) : Bool :=
  let inner := (m.isSome && !d.isSome) || (!m.isSome && d.isSome)
  let both := m.isSome && d.isSome
  (inner && !both) || (!inner && both)

/-- `cloudtrail/utils/cloudtrail_helper.py`
`validate_header_extension_subdict` (lines 22-58) as a predicate: `true`
iff none of its three rejection conditions fires — both keys present and
both values empty; `mapping_field` present and empty with no
`default_value` key; `default_value` present and empty with no
`mapping_field` key. -/
def validate_header_extension_subdict (m d : Option String) : Bool :=
  !(m.isSome && d.isSome && !optTruthy m && !optTruthy d) &&
  !(m.isSome && !d.isSome && !optTruthy m) &&
  !(d.isSome && !m.isSome && !optTruthy d)

/-- `cloudtrail/utils/cloudtrail_helper.py` `validate_extension_field`
(lines 116-149) restricted to the `mapping_field`/`default_value` content
(the type/property-count constraints are about JSON shape): the schema
`oneOf` followed by `validate_header_extension_subdict`. -/
def validate_extension_field (m d : Option String) : Bool :=
  schema_one_of m d && validate_header_extension_subdict m d

end CloudTrail

/-! ## Theorems settling the claims -/

open Chronicle SolarWinds ArcSight CloudTrail

/-! Order-theoretic facts about the Python string comparison, needed to
reason about `sorted`. -/

/-- Unfolding of `charListLe` on two non-empty lists. -/
theorem charListLe_cons_iff (a b : Char) (as bs : List Char) :
    charListLe (a :: as) (b :: bs) = true ↔
      a.toNat < b.toNat ∨ (a.toNat = b.toNat ∧ charListLe as bs = true) := by
  simp only [charListLe]
  by_cases h1 : a.toNat < b.toNat
  · simp [h1]
  · by_cases h2 : b.toNat < a.toNat
    · simp [h1, h2]; omega
    · have h3 : a.toNat = b.toNat := by omega
      simp [h1, h2, h3]

/-- The Python string comparison is total. -/
theorem charListLe_total : ∀ as bs, charListLe as bs = true ∨ charListLe bs as = true := by
  intro as
  induction as with
  | nil => intro bs; left; rfl
  | cons a as ih =>
    intro bs
    cases bs with
    | nil => right; rfl
    | cons b bs =>
      rw [charListLe_cons_iff, charListLe_cons_iff]
      rcases Nat.lt_trichotomy a.toNat b.toNat with h | h | h
      · left; left; exact h
      · rcases ih bs with hr | hr
        · left; right; exact ⟨h, hr⟩
        · right; right; exact ⟨h.symm, hr⟩
      · right; left; exact h

/-- The Python string comparison is transitive. -/
theorem charListLe_trans :
    ∀ as bs cs, charListLe as bs = true → charListLe bs cs = true →
      charListLe as cs = true := by
  intro as
  induction as with
  | nil => intro bs cs _ _; rfl
  | cons a as ih =>
    intro bs cs h1 h2
    cases bs with
    | nil => simp [charListLe] at h1
    | cons b bs =>
      cases cs with
      | nil => simp [charListLe] at h2
      | cons c cs =>
        rw [charListLe_cons_iff] at h1 h2 ⊢
        rcases h1 with h1 | ⟨he1, hr1⟩
        · rcases h2 with h2 | ⟨he2, hr2⟩
          · left; omega
          · left; omega
        · rcases h2 with h2 | ⟨he2, hr2⟩
          · left; omega
          · right; exact ⟨by omega, ih bs cs hr1 hr2⟩

/-- The Python string comparison is antisymmetric. -/
theorem charListLe_antisymm :
    ∀ as bs, charListLe as bs = true → charListLe bs as = true → as = bs := by
  intro as
  induction as with
  | nil =>
    intro bs h1 h2
    cases bs with
    | nil => rfl
    | cons b bs => simp [charListLe] at h2
  | cons a as ih =>
    intro bs h1 h2
    cases bs with
    | nil => simp [charListLe] at h1
    | cons b bs =>
      rw [charListLe_cons_iff] at h1 h2
      rcases h1 with h1 | ⟨he1, hr1⟩
      · rcases h2 with h2 | ⟨he2, hr2⟩ <;> omega
      · rcases h2 with h2 | ⟨he2, hr2⟩
        · omega
        · have hab : a = b := by
            apply Char.ext; apply UInt32.ext; exact he1
          rw [hab, ih bs hr1 hr2]

instance : IsTotal String pyStrLe :=
  ⟨fun a b => charListLe_total a.data b.data⟩

instance : IsTrans String pyStrLe :=
  ⟨fun a b c => charListLe_trans a.data b.data c.data⟩

instance : IsAntisymm String pyStrLe :=
  ⟨fun a b h1 h2 => by
    cases a; cases b
    exact congrArg String.mk (charListLe_antisymm _ _ h1 h2)⟩

/-- C4 (counterexample): the epoch-millisecond converter does *not* accept
only textual input — the numeric (integer) input `169999999999` is
silently coerced via `str()` and padded, succeeding instead of raising a
`TypeConversionError`. -/
theorem epoch_convertor_accepts_numeric_input :
    ArcSight.epoch_convertor (.vInt 169999999999) "ts" = .ok "1699999999990" := by
  rfl

/-- C4 (amended): the epoch-millisecond converter coerces any input to its
textual form via `str()`; when that text is shorter than 13 characters it
is right-padded with `'0'` to exactly 13 characters (in particular the
12-digit text `"169999999999"` yields `"1699999999990"`); texts of 13 or
more characters are returned unchanged, and no arithmetic scaling is
performed. -/
theorem epoch_convertor_pads_to_13 (v : PyVal) (name : String) :
    ((pyStr v).length < 13 →
      epoch_convertor v name =
        .ok (pyStr v ++ String.mk (List.replicate (13 - (pyStr v).length) '0')) ∧
      ∀ s, epoch_convertor v name = .ok s → s.length = 13) ∧
    (13 ≤ (pyStr v).length → epoch_convertor v name = .ok (pyStr v)) ∧
    epoch_convertor (.vStr "169999999999") name = .ok "1699999999990" := by
  refine ⟨fun h => ⟨?_, ?_⟩, fun h => ?_, by rfl⟩
  · simp only [epoch_convertor, if_pos h]
  · intro s hs
    simp only [epoch_convertor, if_pos h, Except.ok.injEq] at hs
    subst hs
    have hlen : (String.mk (List.replicate (13 - (pyStr v).length) '0')).length
        = 13 - (pyStr v).length := by
      simp
    have := String.length_append (pyStr v)
      (String.mk (List.replicate (13 - (pyStr v).length) '0'))
    omega
  · have hn : ¬ (pyStr v).length < 13 := by omega
    simp only [epoch_convertor, if_neg hn]

/-- C4 (witness): the padding clause of `epoch_convertor_pads_to_13`
evaluated at the concrete 12-digit textual input. -/
theorem epoch_convertor_pads_to_13_witness :
    epoch_convertor (.vStr "169999999999") "ts" =
      .ok (pyStr (.vStr "169999999999") ++
        String.mk (List.replicate (13 - (pyStr (.vStr "169999999999")).length) '0')) :=
  ((epoch_convertor_pads_to_13 (.vStr "169999999999") "ts").1 (by decide)).1

/-- C7 (counterexample): the DateTime converter *accepts* a raw number —
`datetime.datetime.fromtimestamp` interprets it as epoch seconds and
returns a structured datetime — instead of rejecting it with a
`TypeConversionError`, and its output is a structured datetime, not epoch
seconds. -/
theorem datetime_converter_accepts_number :
    ArcSight.datetime_converter (.vInt 1609459200) "dt" = .ok (.vDateTime 1609459200) := by
  rfl

/-- C7 (amended): the DateTime converter accepts only a numeric
epoch-seconds value within `datetime`'s representable range (years
1..9999) as input — a raw string, a `None`, an already-structured
date/time value, or an out-of-range number is rejected with a
`TypeConversionError` — and its output is the structured date/time value
for that epoch-seconds instant (the conversion is *from* epoch seconds to
a datetime, not to epoch seconds). -/
theorem datetime_converter_numeric_only :
    (∀ (n : Int) (name : String),
      DATETIME_MIN_TS ≤ n → n ≤ DATETIME_MAX_TS →
      datetime_converter (.vInt n) name = .ok (.vDateTime n)) ∧
    (∀ (n : Int) (name : String),
      n < DATETIME_MIN_TS ∨ DATETIME_MAX_TS < n →
      ∃ msg, datetime_converter (.vInt n) name = .error (.typeError msg)) ∧
    (∀ (s : String) (name : String), ∃ msg,
      datetime_converter (.vStr s) name = .error (.typeError msg)) ∧
    (∀ (t : Int) (name : String), ∃ msg,
      datetime_converter (.vDateTime t) name = .error (.typeError msg)) ∧
    (∀ (name : String), ∃ msg,
      datetime_converter .vNone name = .error (.typeError msg)) := by
  refine ⟨fun n name h1 h2 => ?_, fun n name hout => ?_,
    fun s name => ⟨_, rfl⟩, fun t name => ⟨_, rfl⟩, fun name => ⟨_, rfl⟩⟩
  · simp only [datetime_converter, if_pos (And.intro h1 h2)]
  · have hn : ¬ (DATETIME_MIN_TS ≤ n ∧ n ≤ DATETIME_MAX_TS) := by
      rcases hout with h | h
      · exact fun hc => absurd hc.1 (by omega)
      · exact fun hc => absurd hc.2 (by omega)
    exact ⟨name ++ ": Error occurred while converting to datetime",
      by simp only [datetime_converter, if_neg hn]⟩

/-- C7 (witness): `datetime_converter_numeric_only` at an in-range epoch
value (accepted, converted to a datetime) and at a far out-of-range
number (rejected with the wrapped type error). -/
theorem datetime_converter_numeric_only_witness :
    datetime_converter (.vInt 1700000000) "dt" = .ok (.vDateTime 1700000000) ∧
    ∃ msg, datetime_converter (.vInt 1000000000000) "dt" =
      .error (.typeError msg) :=
  ⟨datetime_converter_numeric_only.1 1700000000 "dt" (by decide) (by decide),
   datetime_converter_numeric_only.2.1 1000000000000 "dt" (Or.inr (by decide))⟩

/-- C9: configuration load rejects every rule in which both
`mapping_field` and `default_value` are absent or empty, and every rule
whose `mapping_field` is present but empty while no `default_value` is
present; a rule with at least one non-empty source of a value passes the
check. -/
theorem validate_extension_field_spec (m d : Option String) :
    (optTruthy m = false → optTruthy d = false →
      validate_extension_field m d = false) ∧
    (m = some "" → d = none → validate_extension_field m d = false) ∧
    (optTruthy m = true ∨ optTruthy d = true →
      validate_extension_field m d = true) := by
  refine ⟨fun hm hd => ?_, fun hm hd => ?_, fun h => ?_⟩
  · rcases m with _ | s <;> rcases d with _ | t <;>
      simp_all [validate_extension_field, schema_one_of,
        validate_header_extension_subdict, optTruthy]
  · subst hm; subst hd; rfl
  · rcases m with _ | s <;> rcases d with _ | t <;>
      simp_all [validate_extension_field, schema_one_of,
        validate_header_extension_subdict, optTruthy]

/-- C9 (witness): the rejection and acceptance clauses of
`validate_extension_field_spec` at concrete rules. -/
theorem validate_extension_field_spec_witness :
    validate_extension_field (some "") none = false ∧
    validate_extension_field (some "mapped") (some "") = true :=
  ⟨(validate_extension_field_spec (some "") none).2.1 rfl rfl,
   (validate_extension_field_spec (some "mapped") (some "")).2.2 (Or.inl (by decide))⟩

/-- C6: for every field name present in the input record, a stored raw
value that is falsy and not an `int` instance (Python's "not a number"
test, which counts `bool` as numeric) resolves to the literal string
`"null"` rather than being treated as absent — both in the Chronicle and
the SolarWinds resolver, and through the whole direct-field resolution —
while a falsy numeric value is returned as-is. -/
theorem falsy_value_coerced_to_null (v : PyVal) :
    (pyTruthy v = false → isIntInstance v = false →
      Chronicle.get_mapping_value_from_field v = .vStr "null" ∧
      SolarWinds.get_mapping_value_from_field v = (.vStr "null", false)) ∧
    (pyTruthy v = false → isIntInstance v = true →
      Chronicle.get_mapping_value_from_field v = v ∧
      SolarWinds.get_mapping_value_from_field v = (v, true)) ∧
    (∀ (mf : String) (d tr : Option String) (data : List (String × PyVal)),
      mf.isEmpty = false → (pySplit (Char.ofNat 45) mf).length = 1 →
      data.lookup mf = some v →
      pyTruthy v = false → isIntInstance v = false →
      Chronicle.get_field_value_from_data ⟨some mf, d, tr, false⟩ data false =
        .ok (.vStr "null")) := by
  refine ⟨fun ht hi => ?_, fun ht hi => ?_, fun mf d tr data hne hsingle hlk ht hi => ?_⟩
  · constructor <;>
      simp [Chronicle.get_mapping_value_from_field,
        SolarWinds.get_mapping_value_from_field, ht, hi]
  · constructor <;>
      simp [Chronicle.get_mapping_value_from_field,
        SolarWinds.get_mapping_value_from_field, ht, hi]
  · simp [Chronicle.get_field_value_from_data, mappingPresent, hne, hsingle,
      hlk, Chronicle.get_mapping_value_from_field, ht, hi]

/-- C6 (witness): `falsy_value_coerced_to_null` evaluated at the empty
string stored under field `"f"`, and at the falsy integer `0`. -/
theorem falsy_value_coerced_to_null_witness :
    Chronicle.get_mapping_value_from_field (.vStr "") = .vStr "null" ∧
    Chronicle.get_mapping_value_from_field (.vInt 0) = .vInt 0 ∧
    Chronicle.get_field_value_from_data ⟨some "f", none, none, false⟩
      [("f", .vStr "")] false = .ok (.vStr "null") :=
  ⟨((falsy_value_coerced_to_null (.vStr "")).1 (by decide) (by decide)).1,
   ((falsy_value_coerced_to_null (.vInt 0)).2.1 (by decide) (by decide)).1,
   (falsy_value_coerced_to_null (.vStr "")).2.2 "f" none none
     [("f", .vStr "")] (by decide) (by decide) rfl (by decide) (by decide)⟩

/-- C8: severity normalization lowercases the (stringified) raw severity
value and looks it up in the audit table when the subtype is `"audit"`
and in the general table otherwise; a value not found in the selected
table maps to the fixed `Unknown` sentinel, and a found value maps to
exactly the table's entry. -/
theorem normalize_severity_spec (audit_map general_map : List (String × String))
    (subtype : String) (raw : PyVal) :
    (subtype = "audit" →
      (∀ found, audit_map.lookup (pyLower (pyStr raw)) = some found →
        normalize_severity audit_map general_map subtype raw = found) ∧
      (audit_map.lookup (pyLower (pyStr raw)) = none →
        normalize_severity audit_map general_map subtype raw = SEVERITY_UNKNOWN)) ∧
    (subtype ≠ "audit" →
      (∀ found, general_map.lookup (pyLower (pyStr raw)) = some found →
        normalize_severity audit_map general_map subtype raw = found) ∧
      (general_map.lookup (pyLower (pyStr raw)) = none →
        normalize_severity audit_map general_map subtype raw = SEVERITY_UNKNOWN)) := by
  refine ⟨fun hs => ⟨fun found hf => ?_, fun hf => ?_⟩,
    fun hs => ⟨fun found hf => ?_, fun hf => ?_⟩⟩ <;>
    simp [normalize_severity, hs, hf]

/-- C8 (witness): `normalize_severity_spec` at the audit subtype with a
recognized (case-varying) raw value and at a non-audit subtype with an
unrecognized raw value. -/
theorem normalize_severity_spec_witness :
    normalize_severity [("low", "3")] [] "audit" (.vStr "LOW") = "3" ∧
    normalize_severity [("low", "3")] [] "alerts" (.vStr "bogus") = SEVERITY_UNKNOWN :=
  ⟨((normalize_severity_spec [("low", "3")] [] "audit" (.vStr "LOW")).1 rfl).1 "3" (by decide),
   ((normalize_severity_spec [("low", "3")] [] "alerts" (.vStr "bogus")).2 (by decide)).2 rfl⟩

/-- C5 (counterexample): the assembled extension portion is *not* sorted
lexicographically by key — Python sorts the whole rendered `key=value`
strings, which disagrees with key order when one key is a proper prefix
of another and the next character compares below `'='`: for the pairs
`a=1, a0=2` the code renders `"a0=2 a=1"` while by-key order gives
`"a=1 a0=2"`. -/
theorem extensions_str_not_by_key :
    extensions_str [("a", "1"), ("a0", "2")] = "a0=2 a=1" ∧
    extensions_str_by_key [("a", "1"), ("a0", "2")] = "a=1 a0=2" ∧
    extensions_str [("a", "1"), ("a0", "2")] ≠
      extensions_str_by_key [("a", "1"), ("a0", "2")] := by
  refine ⟨by decide, by decide, by decide⟩

/-- C5 (amended): the assembled delimited event renders the extension
portion by sorting the rendered `key=value` strings lexicographically
(which coincides with by-key order unless one key is a proper prefix of
another) and joining them with a single space, so the same pairs always
produce the same extension string regardless of insertion order; the
pairs `b=2, a=1` render as `"a=1 b=2"`. -/
theorem extensions_str_deterministic :
    (∀ p q : List (String × String), p.Perm q →
      extensions_str p = extensions_str q) ∧
    extensions_str [("b", "2"), ("a", "1")] = "a=1 b=2" := by
  constructor
  · intro p q hpq
    unfold extensions_str
    congr 1
    have hmap : (p.map fun r => r.1 ++ "=" ++ r.2).Perm
        (q.map fun r => r.1 ++ "=" ++ r.2) := hpq.map _
    exact List.eq_of_perm_of_sorted
      (((List.perm_insertionSort _ _).trans hmap).trans
        (List.perm_insertionSort _ _).symm)
      (List.sorted_insertionSort _ _) (List.sorted_insertionSort _ _)
  · decide

/-- C5 (witness): the determinism clause of `extensions_str_deterministic`
at a concrete pair of permuted inputs. -/
theorem extensions_str_deterministic_witness :
    extensions_str [("b", "2"), ("a", "1")] =
      extensions_str [("a", "1"), ("b", "2")] :=
  extensions_str_deterministic.1 [("b", "2"), ("a", "1")]
    [("a", "1"), ("b", "2")] (by decide)

/-- C1: for a direct single-key mapping rule, field resolution follows the
8-row precedence table, in both the Chronicle and the SolarWinds resolver:
mapping present and field in record → mapped value; mapping present,
field absent, default key present → default; no (truthy) mapping, default
present → default; mapping present, field absent, no default →
`FieldNotFoundError`; and the no-mapping/no-default rows are rejected by
the configuration-load validation. -/
theorem resolution_precedence_table (mf : String) (d tr : Option String)
    (data : List (String × PyVal)) :
    (mf.isEmpty = false → (pySplit '-' mf).length = 1 →
      (∀ v, data.lookup mf = some v →
        Chronicle.get_field_value_from_data ⟨some mf, d, tr, false⟩ data false =
          .ok (Chronicle.get_mapping_value_from_field v) ∧
        (tr ≠ some "Time Stamp" →
          SolarWinds.get_field_value_from_data ⟨some mf, d, tr, false⟩ data false =
            .ok (SolarWinds.get_mapping_value_from_field v))) ∧
      (data.lookup mf = none →
        (∀ dv, d = some dv →
          Chronicle.get_field_value_from_data ⟨some mf, d, tr, false⟩ data false =
            .ok (.vStr dv) ∧
          SolarWinds.get_field_value_from_data ⟨some mf, d, tr, false⟩ data false =
            .ok (.vStr dv, false)) ∧
        (d = none →
          Chronicle.get_field_value_from_data ⟨some mf, d, tr, false⟩ data false =
            .error (.fieldNotFound mf) ∧
          SolarWinds.get_field_value_from_data ⟨some mf, d, tr, false⟩ data false =
            .error (.fieldNotFound mf)))) ∧
    (∀ (em : MappingRule) (jp : Bool), mappingPresent em = false →
      ∀ dv, em.default_value = some dv →
        Chronicle.get_field_value_from_data em data jp = .ok (.vStr dv) ∧
        SolarWinds.get_field_value_from_data em data jp = .ok (.vStr dv, false)) ∧
    (∀ (m dd : Option String), optTruthy m = false → dd = none →
      validate_extension_field m dd = false) := by
  refine ⟨fun hne hsingle => ⟨fun v hlk => ⟨?_, fun htr => ?_⟩,
      fun hlk => ⟨fun dv hd => ⟨?_, ?_⟩, fun hd => ⟨?_, ?_⟩⟩⟩,
    fun em jp hmp dv hd => ⟨?_, ?_⟩, fun m dd hm hd => ?_⟩
  · simp [Chronicle.get_field_value_from_data, mappingPresent, hne, hsingle, hlk]
  · have hdec : decide (tr = some "Time Stamp") = false := by
      cases hb : decide (tr = some "Time Stamp") with
      | false => rfl
      | true => exact absurd (of_decide_eq_true hb) htr
    simp [SolarWinds.get_field_value_from_data, mappingPresent, hne, hlk, hdec]
  · simp [Chronicle.get_field_value_from_data, mappingPresent, hne, hsingle, hlk, hd]
  · simp [SolarWinds.get_field_value_from_data, mappingPresent, hne, hlk, hd]
  · simp [Chronicle.get_field_value_from_data, mappingPresent, hne, hsingle, hlk, hd]
  · simp [SolarWinds.get_field_value_from_data, mappingPresent, hne, hlk, hd]
  · simp [Chronicle.get_field_value_from_data, hmp, Chronicle.defaultBranch, hd]
  · simp [SolarWinds.get_field_value_from_data, hmp, SolarWinds.defaultBranch, hd]
  · subst hd
    rcases m with _ | s
    · rfl
    · simp only [optTruthy, Bool.not_eq_true'] at hm
      simp [validate_extension_field, schema_one_of,
        validate_header_extension_subdict, optTruthy, hm]

/-- C1 (witness): `resolution_precedence_table` at a concrete rule and
record: the field `"user"` is present, so the mapped value is returned. -/
theorem resolution_precedence_table_witness :
    Chronicle.get_field_value_from_data ⟨some "user", some "dflt", none, false⟩
      [("user", .vStr "alice")] false = .ok (.vStr "alice") ∧
    SolarWinds.get_field_value_from_data ⟨some "user", some "dflt", none, false⟩
      [("user", .vStr "alice")] false = .ok (.vStr "alice", true) := by
  have h := (resolution_precedence_table "user" (some "dflt") none
    [("user", .vStr "alice")]).1 (by decide) (by decide)
  have h2 := (h.1 (.vStr "alice") rfl)
  exact ⟨h2.1, h2.2 (by decide)⟩

/-- Extracting the strings of a list of string values succeeds. -/
theorem asStrings_map_vStr (ss : List String) :
    asStrings (ss.map PyVal.vStr) = some ss := by
  induction ss with
  | nil => rfl
  | cons s ss ih => simp [asStrings, ih]

/-- When every component resolves, the composite loop joins the
accumulated values with the component values. -/
theorem compositeLoop_resolved (em : MappingRule) (data : List (String × PyVal)) :
    ∀ (fields : List String) (acc : List PyVal),
      (∀ f ∈ fields, componentResolves data f = true) →
      compositeLoop em data fields acc =
        joinDash (acc.reverse ++ fields.map (componentVal data)) := by
  intro fields
  induction fields with
  | nil => intro acc _; simp [compositeLoop]
  | cons f rest ih =>
    intro acc h
    have hf := h f (List.mem_cons_self f rest)
    have hrest := fun g hg => h g (List.mem_cons_of_mem f hg)
    by_cases hn : trimComponent f = "NULL"
    · rw [compositeLoop, if_pos hn, ih _ hrest]
      simp [componentVal, hn]
    · rcases hlk : data.lookup (trimComponent f) with _ | v
      · exfalso
        simp [componentResolves, hn, hlk] at hf
      · rw [compositeLoop, if_neg hn]
        simp only [hlk]
        rw [ih _ hrest]
        simp [componentVal, hn, hlk]

/-- When some component fails to resolve, the composite loop returns the
default value when the `default_value` key is present, else raises
`FieldNotFoundError` — never a partial join. -/
theorem compositeLoop_fallback (em : MappingRule) (data : List (String × PyVal)) :
    ∀ (fields : List String) (acc : List PyVal),
      (∃ f ∈ fields, componentResolves data f = false) →
      compositeLoop em data fields acc =
        match em.default_value with
        | some dv => .ok (.vStr dv)
        | none => .error (.fieldNotFound (em.mapping_field.getD "")) := by
  intro fields
  induction fields with
  | nil =>
    rintro acc ⟨f, hf, _⟩
    exact absurd hf (List.not_mem_nil f)
  | cons f rest ih =>
    rintro acc ⟨g, hg, hcr⟩
    rcases List.mem_cons.mp hg with rfl | hg'
    · have hn : ¬ trimComponent g = "NULL" := by
        intro hc; simp [componentResolves, hc] at hcr
      have hlk : data.lookup (trimComponent g) = none := by
        rcases hlk2 : data.lookup (trimComponent g) with _ | v
        · rfl
        · simp [componentResolves, hlk2] at hcr
      rw [compositeLoop, if_neg hn]
      simp only [hlk]
    · by_cases hn : trimComponent f = "NULL"
      · rw [compositeLoop, if_pos hn]
        exact ih _ ⟨g, hg', hcr⟩
      · rcases hlk : data.lookup (trimComponent f) with _ | v
        · rw [compositeLoop, if_neg hn]
          simp only [hlk]
        · rw [compositeLoop, if_neg hn]
          simp only [hlk]
          exact ih _ ⟨g, hg', hcr⟩

/-- C3: for a composite (hyphen-separated, multi-key) mapping rule in
direct mode, each component is trimmed of surrounding whitespace and
brackets, a literal `NULL` component contributes the string `"NULL"`
without a record lookup, and when every component resolves the component
values are joined with `" - "`; when any component is absent the whole
composite falls back to the configured `default_value` (never a partial
join), and raises `FieldNotFoundError` when none is configured. -/
theorem composite_mapping_resolution (mf : String) (d tr : Option String)
    (data : List (String × PyVal))
    (hne : mf.isEmpty = false) (hmulti : (pySplit '-' mf).length ≠ 1) :
    ((∀ f ∈ pySplit '-' mf, componentResolves data f = true) →
      Chronicle.get_field_value_from_data ⟨some mf, d, tr, false⟩ data false =
        joinDash ((pySplit '-' mf).map (componentVal data)) ∧
      ∀ ss : List String,
        (pySplit '-' mf).map (componentVal data) = ss.map PyVal.vStr →
        Chronicle.get_field_value_from_data ⟨some mf, d, tr, false⟩ data false =
          .ok (.vStr (String.intercalate " - " ss))) ∧
    (∀ f, trimComponent f = "NULL" → componentVal data f = .vStr "NULL") ∧
    ((∃ f ∈ pySplit '-' mf, componentResolves data f = false) →
      (∀ dv, d = some dv →
        Chronicle.get_field_value_from_data ⟨some mf, d, tr, false⟩ data false =
          .ok (.vStr dv)) ∧
      (d = none →
        Chronicle.get_field_value_from_data ⟨some mf, d, tr, false⟩ data false =
          .error (.fieldNotFound mf))) := by
  have hunfold : Chronicle.get_field_value_from_data ⟨some mf, d, tr, false⟩ data false =
      compositeLoop ⟨some mf, d, tr, false⟩ data (pySplit '-' mf) [] := by
    simp [Chronicle.get_field_value_from_data, mappingPresent, hne, hmulti]
  refine ⟨fun hall => ⟨?_, fun ss hss => ?_⟩, fun f hf => ?_, fun hex => ⟨fun dv hd => ?_, fun hd => ?_⟩⟩
  · rw [hunfold, compositeLoop_resolved _ _ _ _ hall]
    simp
  · rw [hunfold, compositeLoop_resolved _ _ _ _ hall]
    simp only [List.reverse_nil, List.nil_append, hss]
    rw [joinDash, asStrings_map_vStr]
  · simp [componentVal, hf]
  · rw [hunfold, compositeLoop_fallback _ _ _ _ hex, hd]
  · rw [hunfold, compositeLoop_fallback _ _ _ _ hex, hd]
    rfl

/-- C3 (witness): `composite_mapping_resolution` for the rule
`"fieldA-fieldB"`: with both fields present the components are joined
with `" - "`; with `fieldB` absent and a default configured the whole
composite falls back to the default. -/
theorem composite_mapping_resolution_witness :
    Chronicle.get_field_value_from_data
      ⟨some "fieldA-fieldB", some "dflt", none, false⟩
      [("fieldA", .vStr "x"), ("fieldB", .vStr "y")] false = .ok (.vStr "x - y") ∧
    Chronicle.get_field_value_from_data
      ⟨some "fieldA-fieldB", some "dflt", none, false⟩
      [("fieldA", .vStr "x")] false = .ok (.vStr "dflt") :=
  ⟨((composite_mapping_resolution "fieldA-fieldB" (some "dflt") none
      [("fieldA", .vStr "x"), ("fieldB", .vStr "y")] (by decide) (by decide)).1
      (by decide)).2 ["x", "y"] rfl,
   ((composite_mapping_resolution "fieldA-fieldB" (some "dflt") none
      [("fieldA", .vStr "x")] (by decide) (by decide)).2.2
      (by decide)).1 "dflt" rfl⟩

/-- A resolution fold over rules that all either resolve or merely raise
`FieldNotFoundError` succeeds. -/
theorem resolveFold_ok (resolve : String × MappingRule → Except FErr (PyVal × Bool))
    (post : PyVal → PyVal) :
    ∀ (rules : List (String × MappingRule)) (acc : List (String × PyVal)) (flag : Bool),
      (∀ p ∈ rules, (∃ v mfl, resolve p = .ok (v, mfl)) ∨
        (∃ s, resolve p = .error (.fieldNotFound s))) →
      ∃ out fl, resolveFold resolve post rules acc flag = .ok (out, fl) := by
  intro rules
  induction rules with
  | nil => intro acc flag _; exact ⟨acc.reverse, flag, rfl⟩
  | cons p rest ih =>
    intro acc flag h
    rcases h p (List.mem_cons_self p rest) with ⟨v, mfl, hr⟩ | ⟨s, hr⟩ <;>
      simp only [resolveFold, hr] <;>
      exact ih _ _ (fun q hq => h q (List.mem_cons_of_mem p hq))

/-- The accumulated `mapped_field_flag` of a resolution fold is `true`
exactly when it started `true` or some rule resolved with
`mapped_field = True`. -/
theorem resolveFold_flag_iff (resolve : String × MappingRule → Except FErr (PyVal × Bool))
    (post : PyVal → PyVal) :
    ∀ (rules : List (String × MappingRule)) (acc : List (String × PyVal)) (flag : Bool)
      (out : List (String × PyVal)) (fl : Bool),
      resolveFold resolve post rules acc flag = .ok (out, fl) →
      (fl = true ↔ flag = true ∨ ∃ p ∈ rules, ∃ v, resolve p = .ok (v, true)) := by
  intro rules
  induction rules with
  | nil =>
    intro acc flag out fl h
    have h' : acc.reverse = out ∧ flag = fl := by simpa [resolveFold] using h
    rw [← h'.2]
    simp
  | cons p rest ih =>
    intro acc flag out fl h
    cases hr : resolve p with
    | ok vm =>
      obtain ⟨v, mf⟩ := vm
      simp only [resolveFold, hr] at h
      have hih := ih _ _ _ _ h
      cases mf with
      | true =>
        have hfl : fl = true := hih.mpr (Or.inl (by simp))
        simp only [hfl, true_iff]
        exact Or.inr ⟨p, List.mem_cons_self p rest, v, hr⟩
      | false =>
        have hih' : fl = true ↔ flag = true ∨
            ∃ q ∈ rest, ∃ w, resolve q = .ok (w, true) := by
          simpa using hih
        rw [hih']
        constructor
        · rintro (hf | ⟨q, hq, w, hw⟩)
          · exact Or.inl hf
          · exact Or.inr ⟨q, List.mem_cons_of_mem p hq, w, hw⟩
        · rintro (hf | ⟨q, hq, w, hw⟩)
          · exact Or.inl hf
          · rcases List.mem_cons.mp hq with rfl | hq'
            · rw [hr] at hw
              simp at hw
            · exact Or.inr ⟨q, hq', w, hw⟩
    | error e =>
      cases e with
      | fieldNotFound s =>
        simp only [resolveFold, hr] at h
        rw [ih _ _ _ _ h]
        constructor
        · rintro (hf | ⟨q, hq, w, hw⟩)
          · exact Or.inl hf
          · exact Or.inr ⟨q, List.mem_cons_of_mem p hq, w, hw⟩
        · rintro (hf | ⟨q, hq, w, hw⟩)
          · exact Or.inl hf
          · rcases List.mem_cons.mp hq with rfl | hq'
            · rw [hr] at hw
              simp at hw
            · exact Or.inr ⟨q, hq', w, hw⟩
      | keyError s =>
        simp only [resolveFold, hr] at h
        simp at h
      | typeError =>
        simp only [resolveFold, hr] at h
        simp at h

/-- C2: the SolarWinds transform pipeline emits an encoded event for a
record only when the OR of the header and extension `mapped_field_flag`s
is `true` — i.e. only when at least one resolved header or extension
field has provenance mapped (its resolution returned
`mapped_field = True`) — and a record whose header and extension flags
are both `false` (every resolved value came from defaults) is dropped
entirely. -/
theorem record_drop_policy (vars : List (String × String))
    (hm em : List (String × MappingRule)) (data : List (String × PyVal)) :
    (∀ h e, transformRecord vars hm em data = some (h, e) →
      ∃ hf ef, get_headers vars hm data = .ok (h, hf) ∧
        get_extensions em data = .ok (e, ef) ∧ (hf || ef) = true ∧
        (hf = true ↔ ∃ p ∈ hm, ∃ v,
          SolarWinds.get_field_value_from_data p.2 data false = .ok (v, true)) ∧
        (ef = true ↔ ∃ p ∈ em, ∃ v,
          SolarWinds.get_field_value_from_data p.2 data p.2.is_json_path =
            .ok (v, true))) ∧
    (∀ h e, get_headers vars hm data = .ok (h, false) →
      get_extensions em data = .ok (e, false) →
      transformRecord vars hm em data = none) := by
  constructor
  · intro h e hsome
    unfold transformRecord at hsome
    by_cases hemp : data.isEmpty
    · simp [hemp] at hsome
    · rw [if_neg hemp] at hsome
      cases hh : get_headers vars hm data with
      | error err => simp only [hh] at hsome; simp at hsome
      | ok hpr =>
        obtain ⟨h', hf⟩ := hpr
        simp only [hh] at hsome
        cases he : get_extensions em data with
        | error err => simp only [he] at hsome; simp at hsome
        | ok epr =>
          obtain ⟨e', ef⟩ := epr
          simp only [he] at hsome
          cases hor : (hf || ef) with
          | false => simp [hor] at hsome
          | true =>
            simp only [hor, Bool.not_true, Bool.false_eq_true, if_false,
              Option.some.injEq, Prod.mk.injEq] at hsome
            obtain ⟨rfl, rfl⟩ := hsome
            refine ⟨hf, ef, rfl, rfl, hor, ?_, ?_⟩
            · simpa using resolveFold_flag_iff _ _ hm [] false h' hf hh
            · simpa using resolveFold_flag_iff _ _ em [] false e' ef he
  · intro h e hh he
    unfold transformRecord
    by_cases hemp : data.isEmpty
    · simp [hemp]
    · rw [if_neg hemp]
      simp only [hh, he]
      simp

/-- C2 (witness): `record_drop_policy` at a record that is emitted: the
single header rule resolves from the record, so the header flag is `true`
and the record survives the drop check. -/
theorem record_drop_policy_witness :
    ∃ hf ef,
      get_headers [] [("Name", ⟨some "x", none, none, false⟩)]
        [("x", .vStr "alice")] = .ok ([("Name", .vStr "alice")], hf) ∧
      get_extensions [] [("x", .vStr "alice")] = .ok ([], ef) ∧
      (hf || ef) = true ∧
      (hf = true ↔ ∃ p ∈ [("Name", (⟨some "x", none, none, false⟩ : MappingRule))],
        ∃ v, SolarWinds.get_field_value_from_data p.2 [("x", .vStr "alice")] false =
          .ok (v, true)) ∧
      (ef = true ↔ ∃ p ∈ ([] : List (String × MappingRule)), ∃ v,
        SolarWinds.get_field_value_from_data p.2 [("x", .vStr "alice")]
          p.2.is_json_path = .ok (v, true)) :=
  (record_drop_policy [] [("Name", ⟨some "x", none, none, false⟩)] []
    [("x", .vStr "alice")]).1 [("Name", .vStr "alice")] [] rfl

/-- C10: a mapped field present in the record whose value is falsy and
not an `int` instance resolves to the coerced string `"null"` with
`mapped_field = False`, so it does not count as provenance mapped; and a
record in which every header/extension rule resolves with
`mapped_field = False` (a default or a `"null"`-coerced falsy value) or
merely misses its field is dropped by the record-drop check. -/
theorem null_coerced_record_dropped (data : List (String × PyVal)) :
    (∀ v, pyTruthy v = false → isIntInstance v = false →
      SolarWinds.get_mapping_value_from_field v = (.vStr "null", false)) ∧
    (∀ (vars : List (String × String)) (hm em : List (String × MappingRule)),
      (∀ p ∈ hm, (∃ v, SolarWinds.get_field_value_from_data p.2 data false =
          .ok (v, false)) ∨
        (∃ s, SolarWinds.get_field_value_from_data p.2 data false =
          .error (.fieldNotFound s))) →
      (∀ p ∈ em, (∃ v, SolarWinds.get_field_value_from_data p.2 data
          p.2.is_json_path = .ok (v, false)) ∨
        (∃ s, SolarWinds.get_field_value_from_data p.2 data p.2.is_json_path =
          .error (.fieldNotFound s))) →
      transformRecord vars hm em data = none) := by
  constructor
  · intro v ht hi
    simp [SolarWinds.get_mapping_value_from_field, ht, hi]
  · intro vars hm em hhm hem
    obtain ⟨hout, hfl, hh⟩ := resolveFold_ok
      (fun p => SolarWinds.get_field_value_from_data p.2 data false)
      (substituteVars vars) hm [] false
      (fun p hp => by
        rcases hhm p hp with ⟨v, hv⟩ | ⟨s, hs⟩
        · exact Or.inl ⟨v, false, hv⟩
        · exact Or.inr ⟨s, hs⟩)
    obtain ⟨eout, efl, he⟩ := resolveFold_ok
      (fun p => SolarWinds.get_field_value_from_data p.2 data p.2.is_json_path)
      id em [] false
      (fun p hp => by
        rcases hem p hp with ⟨v, hv⟩ | ⟨s, hs⟩
        · exact Or.inl ⟨v, false, hv⟩
        · exact Or.inr ⟨s, hs⟩)
    have hfl0 : hfl = false := by
      cases hflc : hfl with
      | false => rfl
      | true =>
        exfalso
        have := (resolveFold_flag_iff _ _ hm [] false hout hfl hh).mp hflc
        rcases this with hc | ⟨p, hp, v, hv⟩
        · simp at hc
        · rcases hhm p hp with ⟨w, hw⟩ | ⟨s, hs⟩
          · rw [hv] at hw; simp at hw
          · rw [hv] at hs; simp at hs
    have hefl0 : efl = false := by
      cases heflc : efl with
      | false => rfl
      | true =>
        exfalso
        have := (resolveFold_flag_iff _ _ em [] false eout efl he).mp heflc
        rcases this with hc | ⟨p, hp, v, hv⟩
        · simp at hc
        · rcases hem p hp with ⟨w, hw⟩ | ⟨s, hs⟩
          · rw [hv] at hw; simp at hw
          · rw [hv] at hs; simp at hs
    unfold transformRecord
    by_cases hemp : data.isEmpty
    · simp [hemp]
    · rw [if_neg hemp]
      have hh' : get_headers vars hm data = .ok (hout, hfl) := hh
      have he' : get_extensions em data = .ok (eout, efl) := he
      simp only [hh', he', hfl0, hefl0]
      simp

/-- C10 (witness): `null_coerced_record_dropped` at a record whose only
value is an empty string: the single header rule resolves to
`("null", False)` and the record is dropped. -/
theorem null_coerced_record_dropped_witness :
    transformRecord [] [("Name", ⟨some "x", none, none, false⟩)] []
      [("x", .vStr "")] = none :=
  (null_coerced_record_dropped [("x", .vStr "")]).2 []
    [("Name", ⟨some "x", none, none, false⟩)] []
    (fun p hp => by
      rcases List.mem_singleton.mp hp with rfl
      exact Or.inl ⟨.vStr "null", rfl⟩)
    (fun p hp => absurd hp (List.not_mem_nil p))

end CloudExchange
